import Mathlib

/-!
Verification of the recipe-language core of the custom-repo package builder.

Python strings are modelled as lists of characters (`Str`); Python
exceptions as an explicit error type (`Err`) threaded through `Except`.
External collaborators (HTTP, browser, the `re` regex engine and
`fnmatch`) are passed in as oracle parameters, mirroring the
`ConnectionKeeper`/stdlib calls of the source.
-/

set_option linter.unusedVariables false
set_option synthInstance.maxSize 1024
set_option maxRecDepth 4096

/-- Python `str` values, modelled as lists of characters. -/
abbrev Str := List Char

/-- Embed a Lean string literal as a Python string value. -/
def str (s : String) : Str := s.toList

/-- Python `str.isspace` for the ASCII whitespace characters. -/
def isPySpace (c : Char) : Bool :=
  c == ' ' || c == '\t' || c == '\n' || c == '\r' || c == '\x0b' || c == '\x0c'

/-- Python `str.lstrip()` (no argument: strip leading whitespace). -/
def pyLstrip (s : Str) : Str := s.dropWhile isPySpace

/-- Python `str.strip()`. -/
def pyStrip (s : Str) : Str := ((pyLstrip s).reverse.dropWhile isPySpace).reverse

/-- The leading-whitespace run of a line: `line[:len(line) - len(line.lstrip())]`. -/
def pyLeadingWS (s : Str) : Str := s.takeWhile isPySpace

/-- Python `str.removeprefix`: drops `pre` when it is a prefix, otherwise
returns the string unchanged (it never raises). -/
def pyRemovePre (pre s : Str) : Str := if pre.isPrefixOf s then s.drop pre.length else s

/-- Worker for `pyReplace`; the fuel argument (initially the length of the
string) only justifies termination, one character is consumed per step. -/
def pyReplaceFuel (old new : Str) : Nat → Str → Str
  | _, [] => []
  | 0, s => s
  | fuel + 1, c :: rest =>
    if old.isPrefixOf (c :: rest) then
      new ++ pyReplaceFuel old new fuel ((c :: rest).drop old.length)
    else
      c :: pyReplaceFuel old new fuel rest

/-- Python `s.replace(old, new)` for a non-empty pattern (every call site in
the source uses a non-empty pattern such as `"$NAME"`). -/
def pyReplace (s old new : Str) : Str :=
  if old.isEmpty then s else pyReplaceFuel old new s.length s

/-- Split a string on a separator character, Python `s.split(sep)`. -/
def splitOnChar (sep : Char) : Str → List Str
  | [] => [[]]
  | c :: rest =>
    let r := splitOnChar sep rest
    if c == sep then [] :: r else (c :: r.headI) :: r.tail

/-- Python `s.split(sep, maxsplit=1)`: the part before the first separator and,
when the separator occurs, the remainder after it. -/
def splitOnceOn (sep : Char) (s : Str) : Str × Option Str :=
  if s.contains sep then
    (s.takeWhile (fun c => ¬ c == sep), some ((s.dropWhile (fun c => ¬ c == sep)).drop 1))
  else (s, none)

/-- `pathlib.PurePath(s).name`: the last non-empty slash-separated component. -/
def pathName (s : Str) : Str :=
  ((splitOnChar '/' s).filter (fun seg => ¬ seg.isEmpty)).getLastD []

/-- `pathlib.PurePath(s).suffixes`: an empty list when the name ends in a dot,
otherwise the dot-led extensions of the name after stripping leading dots. -/
def pySuffixes (s : Str) : List Str :=
  let nm := pathName s
  if nm.getLast? == some '.' then []
  else
    ((splitOnChar '.' (nm.dropWhile (fun c => c == '.'))).drop 1).map (fun p => '.' :: p)

/-- Python substring containment: `sub in s`. -/
def isSubstr (sub s : Str) : Bool := s.tails.any (fun t => sub.isPrefixOf t)

/-- True when an `Except` value is an error. -/
def isErr {ε α : Type} : Except ε α → Bool
  | .error _ => true
  | .ok _ => false

instance {ε α : Type} [DecidableEq ε] [DecidableEq α] : DecidableEq (Except ε α) :=
  fun a b =>
    match a, b with
    | .error e1, .error e2 =>
      if h : e1 = e2 then .isTrue (by rw [h]) else .isFalse (by intro hh; cases hh; exact h rfl)
    | .ok v1, .ok v2 =>
      if h : v1 = v2 then .isTrue (by rw [h]) else .isFalse (by intro hh; cases hh; exact h rfl)
    | .error _, .ok _ => .isFalse (by intro hh; cases hh)
    | .ok _, .error _ => .isFalse (by intro hh; cases hh)

/-! ### The command vocabulary (`parser/cmds.py`) -/

/-- The `Command` enum of `parser/cmds.py`: the closed verb set of the recipe
language. -/
inductive Command
  | CHOCO | VERSION | DOWNLOAD | DOWNLOAD_GH | DOWNLOAD_BROWSER
  | SYMLINK_SRC | COPY_SRC | COPY | COPY_FIX | COPY_DIR | COPY_GLOB
  | SANDBOX | RENAME | SET | EXTRACT | CREATE_DEB | BUILD_DEB
  | CASK | CONDA | CONDA_BUILD | MKDIR | DH_DISABLE | INCLUDE_BINARIES
  | DOWNLOAD_REMOTE_NAME | SET_NATIVE | REMOVE
  deriving DecidableEq, Repr, Inhabited

/-- The string value of each enum member (identical to its name). -/
def Command.value : Command → Str
  | .CHOCO => str "CHOCO"
  | .VERSION => str "VERSION"
  | .DOWNLOAD => str "DOWNLOAD"
  | .DOWNLOAD_GH => str "DOWNLOAD_GH"
  | .DOWNLOAD_BROWSER => str "DOWNLOAD_BROWSER"
  | .SYMLINK_SRC => str "SYMLINK_SRC"
  | .COPY_SRC => str "COPY_SRC"
  | .COPY => str "COPY"
  | .COPY_FIX => str "COPY_FIX"
  | .COPY_DIR => str "COPY_DIR"
  | .COPY_GLOB => str "COPY_GLOB"
  | .SANDBOX => str "SANDBOX"
  | .RENAME => str "RENAME"
  | .SET => str "SET"
  | .EXTRACT => str "EXTRACT"
  | .CREATE_DEB => str "CREATE_DEB"
  | .BUILD_DEB => str "BUILD_DEB"
  | .CASK => str "CASK"
  | .CONDA => str "CONDA"
  | .CONDA_BUILD => str "CONDA_BUILD"
  | .MKDIR => str "MKDIR"
  | .DH_DISABLE => str "DH_DISABLE"
  | .INCLUDE_BINARIES => str "INCLUDE_BINARIES"
  | .DOWNLOAD_REMOTE_NAME => str "DOWNLOAD_REMOTE_NAME"
  | .SET_NATIVE => str "SET_NATIVE"
  | .REMOVE => str "REMOVE"

/-- Every member of the `Command` enum, in declaration order. -/
def COMMAND_MEMBERS : List Command :=
  [.CHOCO, .VERSION, .DOWNLOAD, .DOWNLOAD_GH, .DOWNLOAD_BROWSER,
   .SYMLINK_SRC, .COPY_SRC, .COPY, .COPY_FIX, .COPY_DIR, .COPY_GLOB,
   .SANDBOX, .RENAME, .SET, .EXTRACT, .CREATE_DEB, .BUILD_DEB,
   .CASK, .CONDA, .CONDA_BUILD, .MKDIR, .DH_DISABLE, .INCLUDE_BINARIES,
   .DOWNLOAD_REMOTE_NAME, .SET_NATIVE, .REMOVE]

/-- `Command(cmd)`: value-based enum lookup; `none` models the `ValueError`
raised for an unknown value. -/
def Command.ofString (s : Str) : Option Command :=
  COMMAND_MEMBERS.find? (fun c => c.value == s)

/-- `NUMBER_OF_ARGS`: the accepted argument counts per verb (an `int` or a
tuple of admissible counts in the source). -/
def NUMBER_OF_ARGS : Command → List Nat
  | .CHOCO => [0]
  | .VERSION => [1]
  | .DOWNLOAD => [1]
  | .DOWNLOAD_REMOTE_NAME => [1]
  | .DOWNLOAD_GH => [2, 3]
  | .DOWNLOAD_BROWSER => [1]
  | .SYMLINK_SRC => [1]
  | .COPY_SRC => [1]
  | .COPY => [2]
  | .COPY_FIX => [2]
  | .COPY_DIR => [2]
  | .COPY_GLOB => [3]
  | .SANDBOX => [0]
  | .MKDIR => [1]
  | .RENAME => [1]
  | .SET => [2]
  | .EXTRACT => [0, 1]
  | .CREATE_DEB => [0, 1]
  | .BUILD_DEB => [0]
  | .CASK => [1]
  | .CONDA => [0]
  | .CONDA_BUILD => [0]
  | .DH_DISABLE => [1]
  | .INCLUDE_BINARIES => [0]
  | .SET_NATIVE => [0]
  | .REMOVE => [1]

/-! ### Command groups (`parser/cmd_groups.py`) -/

/-- `DOWNLOAD_CMDS`: the download-family verbs. -/
def DOWNLOAD_CMDS : List Command :=
  [.DOWNLOAD, .DOWNLOAD_REMOTE_NAME, .DOWNLOAD_BROWSER, .DOWNLOAD_GH,
   .SYMLINK_SRC, .COPY_SRC]

/-- `COPY_CMDS`: the copy-family verbs. -/
def COPY_CMDS : List Command := [.COPY, .COPY_FIX, .COPY_DIR, .COPY_GLOB]

/-- `UNIQUE_CMDS`: verbs that may occur at most once in a recipe. -/
def UNIQUE_CMDS : List Command :=
  [.VERSION, .SANDBOX, .CREATE_DEB, .BUILD_DEB, .CASK, .CONDA]

namespace cmd_groups

/-- Typeguard `cmd_groups.download_cmd`. -/
def download_cmd (c : Command) : Bool := DOWNLOAD_CMDS.contains c

/-- Typeguard `cmd_groups.download_gh`. -/
def download_gh (c : Command) : Bool := c == Command.DOWNLOAD_GH

/-- Typeguard `cmd_groups.from_file`. -/
def from_file (c : Command) : Bool :=
  c == Command.DOWNLOAD || c == Command.DOWNLOAD_BROWSER ||
    c == Command.DOWNLOAD_REMOTE_NAME

/-- Typeguard `cmd_groups.download_direct`. -/
def download_direct (c : Command) : Bool :=
  c == Command.DOWNLOAD || c == Command.DOWNLOAD_REMOTE_NAME

/-- Typeguard `cmd_groups.from_src`. -/
def from_src (c : Command) : Bool :=
  c == Command.SYMLINK_SRC || c == Command.COPY_SRC

/-- Typeguard `cmd_groups.copy_cmd`. -/
def copy_cmd (c : Command) : Bool := COPY_CMDS.contains c

end cmd_groups

/-! ### Parameters and errors (`parser/params.py`, `exceptions.py`) -/

/-- `TargetDir` of `parser/params.py`: note that the member for the Homebrew
tree is named `BREW` (value `"brew"`); the enum has no member `TAP`, although
the class docstring documents one and `parse.py`, `impl/utils.py` and
`parser/dl.py` all access `TargetDir.TAP`. -/
inductive TargetDir
  | TMP | DEBS | BREW
  deriving DecidableEq, Repr

/-- The string value of each `TargetDir` member. -/
def TargetDir.value : TargetDir → Str
  | .TMP => str "tmp"
  | .DEBS => str "debs"
  | .BREW => str "brew"

/-- `PackageManager` of `parser/params.py`. -/
inductive PackageManager
  | CHOCO | APT | BREW | CONDA
  deriving DecidableEq, Repr

/-- The string value of each `PackageManager` member. -/
def PackageManager.value : PackageManager → Str
  | .CHOCO => str "choco"
  | .APT => str "apt"
  | .BREW => str "brew"
  | .CONDA => str "conda"

/-- The `FILE` field of `Params`: `Path | None | Literal["FAILED_DOWNLOAD"]`. -/
inductive FileField
  | noFile
  | path (p : Str)
  | failedDownload
  deriving DecidableEq, Repr

/-- The `Params` TypedDict: the per-recipe build context. -/
structure Params where
  NAME : Str
  DIR : TargetDir
  REPO : Str
  DOMAIN : Str
  MGR : PackageManager
  VERSION : Str
  PKG : Option Str
  FILE : FileField
  VARS : List (Str × Str)
  AUTHORIZATION : Str
  STEM : Str
  SUFFIXES : List Str
  deriving DecidableEq, Repr

/-- `params.keys()`: the fixed context-field names, in TypedDict order. -/
def paramKeys : List Str :=
  [str "NAME", str "DIR", str "REPO", str "DOMAIN", str "MGR", str "VERSION",
   str "PKG", str "FILE", str "VARS", str "AUTHORIZATION", str "STEM",
   str "SUFFIXES"]

/-- The exceptions the interpreter can raise.  `parsing`, `unknownCommand` and
`structureErr` mirror `ParsingError`, `UnknownCommandError` and
`StructureError` (siblings under `CustomRepoError`); `valueError`,
`indexError` and `attributeError` mirror the built-in exceptions;
`githubError`, `extensionError`, `commandExecution` and `variableError`
mirror `GitHubError`, `ExtensionError`, `CommandExecutionError` and
`VariableError`. -/
inductive Err
  | parsing (msg : Str)
  | unknownCommand (msg : Str)
  | structureErr (msg : Str)
  | valueError (msg : Str)
  | indexError
  | attributeError (name : Str)
  | githubError (msg : Str)
  | extensionError (msg : Str)
  | commandExecution (msg : Str)
  | variableError (msg : Str)
  deriving DecidableEq, Repr

/-- A tokenized command line: `(Command, args)`. -/
abbrev PCmd := Command × List Str

/-! ### Tokenizer (`parser/parse.py`: `read_lines`, `parse_single_cmd`,
`parse_cmds`) -/

/-- States of the POSIX `shlex` splitter used by `shlex.split`. -/
inductive ShState
  | norm | esc | squote | dquote | dqesc
  deriving DecidableEq, Repr

/-- One-character-at-a-time model of POSIX `shlex.split` (whitespace
splitting, single/double quotes, backslash escapes; inside double quotes a
backslash escapes only a quote or a backslash).  An unterminated quote or
escape — on which Python raises `ValueError` — simply flushes the pending
token; no call site in the claims exercises malformed quoting. -/
def shlexRun : List Char → ShState → Option Str → List Str → List Str
  | [], _, cur, acc =>
    match cur with
    | none => acc
    | some t => acc ++ [t]
  | c :: rest, .norm, cur, acc =>
    if isPySpace c then
      match cur with
      | none => shlexRun rest .norm none acc
      | some t => shlexRun rest .norm none (acc ++ [t])
    else if c == '\'' then shlexRun rest .squote (some (cur.getD [])) acc
    else if c == '"' then shlexRun rest .dquote (some (cur.getD [])) acc
    else if c == '\\' then shlexRun rest .esc (some (cur.getD [])) acc
    else shlexRun rest .norm (some (cur.getD [] ++ [c])) acc
  | c :: rest, .esc, cur, acc => shlexRun rest .norm (some (cur.getD [] ++ [c])) acc
  | c :: rest, .squote, cur, acc =>
    if c == '\'' then shlexRun rest .norm cur acc
    else shlexRun rest .squote (some (cur.getD [] ++ [c])) acc
  | c :: rest, .dquote, cur, acc =>
    if c == '"' then shlexRun rest .norm cur acc
    else if c == '\\' then shlexRun rest .dqesc cur acc
    else shlexRun rest .dquote (some (cur.getD [] ++ [c])) acc
  | c :: rest, .dqesc, cur, acc =>
    if c == '"' || c == '\\' then shlexRun rest .dquote (some (cur.getD [] ++ [c])) acc
    else shlexRun rest .dquote (some (cur.getD [] ++ ['\\', c])) acc

/-- `shlex.split(line)`. -/
def shlexSplit (s : Str) : List Str := shlexRun s .norm none []

/-- Append `s` to the last element of `xs` (`lines[-1][1][-1] += line`).
`read_lines` only reaches this with a non-empty list: a non-empty `indent`
implies a pending block argument exists. -/
def append_to_last (xs : List Str) (s : Str) : List Str :=
  match xs with
  | [] => []
  | [x] => [x ++ s]
  | x :: rest => x :: append_to_last rest s

/-- Is a raw line skipped by the tokenizer (`not line.strip()` or a
`#` comment)? -/
def skippedLine (line : Str) : Bool :=
  (pyStrip line).isEmpty || line.take 1 == [ '#' ]

/-- Is a raw line an indented continuation line
(`line.startswith(" ") or line.startswith("\t")`)? -/
def indentedLine (line : Str) : Bool :=
  line.take 1 == [ ' ' ] || line.take 1 == [ '\t' ]

/-- The loop of `read_lines`.  `acc` holds the commands accumulated so far in
reverse order (its head is `lines[-1]` of the source); `indent` is the
indentation prefix established by the first line of the current continuation
block (empty when no block is open).  Note that on a continuation line the
source calls `str.removeprefix`, which never raises: the
`except AttributeError` arm that would report
"Found a line with less indentation than the first." is unreachable, so a
line indented less than (or incompatibly with) the established prefix is
appended unchanged. -/
def read_lines_go : List Str → List (Str × List Str) → Str →
    Except Err (List (Str × List Str))
  | [], acc, _ => .ok acc.reverse
  | line :: rest, acc, indent =>
    if skippedLine line then read_lines_go rest acc indent
    else if indentedLine line then
      match acc with
      | [] => .error (.parsing (str "First line must not be indented."))
      | (cmd, args) :: accTail =>
        if indent.isEmpty then
          let indent1 := pyLeadingWS line
          let line1 := pyRemovePre indent1 line ++ [ '\n' ]
          read_lines_go rest ((cmd, append_to_last (args ++ [[]]) line1) :: accTail) indent1
        else
          let line1 := pyRemovePre indent line ++ [ '\n' ]
          read_lines_go rest ((cmd, append_to_last args line1) :: accTail) indent
    else
      match shlexSplit line with
      | [] => .error (.valueError (str "not enough values to unpack"))
      | c :: args => read_lines_go rest ((c, args) :: acc) []

/-- `read_lines`: raw lines to ordered `(command-token, args)` pairs with
indentation continuation. -/
def read_lines (inputs : List Str) : Except Err (List (Str × List Str)) :=
  read_lines_go inputs [] []

/-- `parse_single_cmd`: enum lookup plus the explicit rejection of
`CONDA_BUILD` at parse time. -/
def parse_single_cmd (cmd : Str) : Except Err Command :=
  match Command.ofString cmd with
  | some parsed_cmd =>
    if parsed_cmd == Command.CONDA_BUILD then
      .error (.parsing (str "CONDA_BUILD command not allowed! Use CONDA instead."))
    else .ok parsed_cmd
  | none => .error (.unknownCommand (str "Unknown command: " ++ cmd))

/-- `check_number_of_args`; the message is a rendering of the verb, the
expected counts and the offending line in the source. -/
def check_number_of_args (cmd : Command) (args : List Str) : Except Err Unit :=
  if (NUMBER_OF_ARGS cmd).contains args.length then .ok ()
  else .error (.valueError (str "Expected arguments mismatch in line: " ++ cmd.value))

/-- The list comprehension of `parse_cmds`: parse each verb in order,
stopping at the first failure. -/
def parse_all : List (Str × List Str) → Except Err (List PCmd)
  | [] => .ok []
  | (c, args) :: rest =>
    match parse_single_cmd c with
    | .error e => .error e
    | .ok pc =>
      match parse_all rest with
      | .error e => .error e
      | .ok prest => .ok ((pc, args) :: prest)

/-- The arity-checking loop of `parse_cmds`. -/
def check_all_args : List PCmd → Except Err Unit
  | [] => .ok ()
  | (c, args) :: rest =>
    match check_number_of_args c args with
    | .error e => .error e
    | .ok _ => check_all_args rest

/-- `parse_cmds` (applied to the file's lines): tokenize, parse each verb,
check arities. -/
def parse_cmds (inputs : List Str) : Except Err (List PCmd) :=
  match read_lines inputs with
  | .error e => .error e
  | .ok lines =>
    match parse_all lines with
    | .error e => .error e
    | .ok cmds =>
      match check_all_args cmds with
      | .error e => .error e
      | .ok _ => .ok cmds

/-! ### Variable substitution (`parser/utils.py`: `fix_vars`;
`impl/cmds.py`: `set_cmd`) -/

/-- Python `dict` assignment `d[k] = v` on an insertion-ordered mapping. -/
def dictUpdate {α : Type} (d : List (Str × α)) (k : Str) (v : α) : List (Str × α) :=
  if d.any (fun kv => kv.1 == k) then
    d.map (fun kv => if kv.1 == k then (k, v) else kv)
  else d ++ [(k, v)]

/-- The fixed context fields rendered for substitution, in TypedDict order:
`Path` and `Enum` values via their canonical string form, `None` values kept
as `none` (they are skipped); the `VARS` and `SUFFIXES` entries are always in
the skip set, so their (non-string) values never reach the replacement. -/
def renderedParams (p : Params) : List (Str × Option Str) :=
  [(str "NAME", some p.NAME),
   (str "DIR", some p.DIR.value),
   (str "REPO", some p.REPO),
   (str "DOMAIN", some p.DOMAIN),
   (str "MGR", some p.MGR.value),
   (str "VERSION", some p.VERSION),
   (str "PKG", p.PKG),
   (str "FILE",
     match p.FILE with
     | .noFile => none
     | .path q => some q
     | .failedDownload => some (str "FAILED_DOWNLOAD")),
   (str "VARS", none),
   (str "AUTHORIZATION", some p.AUTHORIZATION),
   (str "STEM", some p.STEM),
   (str "SUFFIXES", none)]

/-- `{**params, **params["VARS"]}`: the fixed fields updated/extended by the
user variables, in Python dict-merge order. -/
def all_vars (p : Params) : List (Str × Option Str) :=
  p.VARS.foldl (fun d kv => dictUpdate d kv.1 (some kv.2)) (renderedParams p)

/-- `fix_vars`: replace every `$KEY` of the merged mapping (outside the skip
set, skipping `None` values), then expand a remaining `$DEST` to
`name-version`.  The function is total: unknown references are left in the
returned text. -/
def fix_vars (p : Params) (s : Str) (skip : List Str) : Str :=
  let skip_set := skip ++ [str "VARS", str "SUFFIXES"]
  let s1 := (all_vars p).foldl
    (fun acc kv =>
      if skip_set.contains kv.1 then acc
      else
        match kv.2 with
        | none => acc
        | some v => pyReplace acc ('$' :: kv.1) v)
    s
  if isSubstr (str "$DEST") s1 then
    pyReplace s1 (str "$DEST") (p.NAME ++ [ '-' ] ++ p.VERSION)
  else s1

/-- The substituted value computed by `set_cmd` (`impl/cmds.py` lines 38-42):
`$NAME` and `$VERSION` are replaced eagerly, then `fix_vars` runs with every
fixed field in the skip set, so only user variables (and `$DEST`) are
expanded. -/
def set_value (p : Params) (value : Str) : Str :=
  fix_vars p (pyReplace (pyReplace value (str "$NAME") p.NAME) (str "$VERSION") p.VERSION)
    paramKeys

/-- `set_cmd`: the SET handler.  After substitution, a value still naming a
fixed context field, or containing any `$` at all, raises `VariableError`;
otherwise the pair is stored in the user-variable map. -/
def set_cmd (p : Params) (args : List Str) : Except Err Params :=
  match args with
  | [key, value] =>
    if paramKeys.any (fun k => isSubstr ('$' :: k) (set_value p value)) then
      .error (.variableError (str "Params var other than NAME or VERSION in value: "
        ++ set_value p value ++ str ". Only custom vars allowed."))
    else if (set_value p value).contains '$' then
      .error (.variableError (str "Unknown variable in value: " ++ set_value p value))
    else .ok { p with VARS := dictUpdate p.VARS key (set_value p value) }
  | _ => .error (.valueError (str "not enough values to unpack"))

/-! ### Extension filter (`modules/ext.py`: `filter_exts`) -/

/-- `ALLOWED_EXTENSIONS`: compression plus package/auxiliary extensions. -/
def ALLOWED_EXTENSIONS : List Str :=
  [str ".tgz", str ".tar.gz", str ".tbz2", str ".bz2", str ".tar", str ".gz",
   str ".xz", str ".zip", str ".7z", str ".deb", str ".rpm", str ".exe",
   str ".msi", str ".rb", str ".nupkg", str ".nuspec", str ".ps1", str ".xml"]

/-- `filter_exts` (list form): keep the maximal trailing run of allowed
suffixes; it is an `ExtensionError` when an allowed suffix remains in the
dropped leading part (an allowed extension precedes a disallowed one). -/
def filter_exts (suffixes : List Str) : Except Err (List Str) :=
  let filtered := (suffixes.reverse.takeWhile (fun s => ALLOWED_EXTENSIONS.contains s)).reverse
  let remaining := suffixes.take (suffixes.length - filtered.length)
  if remaining.any (fun s => ALLOWED_EXTENSIONS.contains s) then
    .error (.extensionError (str "An allowed extensions preceeds a disallowed one."))
  else .ok filtered

/-! ### GitHub release resolution (`modules/download/gh.py`,
`parser/parse.py`: `get_version_from_github`) -/

/-- Python truthiness of an optional string: `None` and `""` are falsy. -/
def optFalsy : Option Str → Bool
  | none => true
  | some s => s.isEmpty

/-- `find_asset_by_tag`: look the tag up in the release data (`dict.get`),
raise when it is missing or has no assets, and require at most one
`fnmatch` match (`mf` is the `fnmatch.fnmatch` oracle). -/
def find_asset_by_tag (mf : Str → Str → Bool) (release_data : List (Str × List Str))
    (pattern tag : Str) : Except Err (Option Str) :=
  match (release_data.find? (fun kv => kv.1 == tag)).map Prod.snd with
  | none => .error (.githubError (str "No assets found for tag " ++ tag ++ str "."))
  | some assets =>
    if assets.isEmpty then
      .error (.githubError (str "No assets found for tag " ++ tag ++ str "."))
    else
      match assets.filter (fun a => mf a pattern) with
      | [] => .ok none
      | [a] => .ok (some a)
      | _ => .error (.githubError (str "Multiple matching tags for pattern " ++ pattern ++ str "."))

/-- The tag loop of `find_recent_asset`: first tag in listing order whose
lookup returns a truthy asset; a raised `GitHubError` propagates. -/
def find_recent_asset_go (mf : Str → Str → Bool) (full : List (Str × List Str))
    (pattern : Str) : List (Str × List Str) → Except Err (Str × Str)
  | [] => .error (.githubError (str "No matching tag found for pattern " ++ pattern ++ str "."))
  | (tag, _) :: rest =>
    match find_asset_by_tag mf full pattern tag with
    | .error e => .error e
    | .ok none => find_recent_asset_go mf full pattern rest
    | .ok (some a) =>
      if a.isEmpty then find_recent_asset_go mf full pattern rest
      else .ok (a, tag)

/-- `find_recent_asset`. -/
def find_recent_asset (mf : Str → Str → Bool) (release_data : List (Str × List Str))
    (pattern : Str) : Except Err (Str × Str) :=
  find_recent_asset_go mf release_data pattern release_data

/-- `re.sub(r"[^\d.-_]", "", version_str)`: inside the character class the
unescaped `-` forms the range `.-_` (codepoints 0x2E to 0x5F), so the kept
characters are the digits plus every character from `'.'` to `'_'` — which
includes the uppercase letters, `/:;<=>?@[\]^` and `_`, and excludes `'-'`
itself; `\d` is modelled as the ASCII digits. -/
def sanitize_version (s : Str) : Str :=
  s.filter (fun c => c.isDigit || (46 ≤ c.toNat && c.toNat ≤ 95))

/-- `get_version_from_github` given the fetched release data (the
`dl.get_release_data` call is hoisted to the caller): no pattern takes the
newest tag; a (truthy) tag requires exactly one asset match under it; a
pattern alone scans tags in listing order; the chosen tag is passed through
`sanitize_version`. -/
def get_version_from_github (mf : Str → Str → Bool)
    (release_data : List (Str × List Str)) (pattern tag : Option Str) :
    Except Err (Str × List Str) :=
  match release_data with
  | [] => .error (.parsing (str "No release found on GitHub."))
  | (t0, _) :: _ => do
    let (asset, version_str) ←
      if optFalsy pattern then pure ((none : Option Str), t0)
      else do
        let pat := pattern.getD []
        if ¬ optFalsy tag then do
          let tg := tag.getD []
          let a? ← find_asset_by_tag mf release_data pat tg
          match a? with
          | some a =>
            if a.isEmpty then
              throw (Err.parsing (str "No asset found for tag " ++ tg ++ str " in the GitHub repo."))
            else pure (some a, tg)
          | none =>
            throw (Err.parsing (str "No asset found for tag " ++ tg ++ str " in the GitHub repo."))
        else do
          let av ← find_recent_asset mf release_data pat
          pure (some av.1, av.2)
    let suffixes :=
      match asset with
      | some a => if a.isEmpty then [] else pySuffixes a
      | none => ([] : List Str)
    pure (sanitize_version version_str, suffixes)

/-! ### External collaborators -/

/-- The external collaborators of the load phase, passed as oracles:
`release_of` models `dl.get_release_data` (network), `get_name` models
`get_name` of `parse.py` (remote-filename probe / browser download, returning
a filename or the `"FAILED_DOWNLOAD"` sentinel), `re_version` models the
`re.compile(...).match(...).group(1)` step of `adjust_regex_version`
(Python's regex engine), and `fnmatch` models `fnmatch.fnmatch`. -/
structure Oracles where
  release_of : Str → List (Str × List Str)
  get_name : Command → Str → Str
  re_version : Str → Str → Except Err Str
  fnmatch : Str → Str → Bool

/-- The compression suffixes stripped by `adjust_regex_version`. -/
def KNOWN_COMP_SUFFIXES : List Str :=
  [str ".tar", str ".gz", str ".tgz", str ".bz2", str ".tbz2"]

/-- `adjust_regex_version`: require the `re:` marker, strip the known
compression suffixes from the filename, then match the configured regex and
take capture group 1 (the regex step is the `re_version` oracle). -/
def adjust_regex_version (re_version : Str → Str → Except Err Str)
    (version filename : Str) : Except Err Str :=
  if ¬ ((str "re:").isPrefixOf version) then
    .error (.valueError (str "Not a regex VERSION: " ++ version))
  else
    let version1 := version.drop 3
    let filename1 := KNOWN_COMP_SUFFIXES.foldl (fun f sfx => pyReplace f sfx []) filename
    re_version version1 filename1

/-- `get_version_from_download`: regex-based version resolution against the
probed remote filename of the sole download command. -/
def get_version_from_download (ext : Oracles) (orig_version : Str)
    (download_cmd : Option PCmd) : Except Err (Str × List Str) :=
  match download_cmd with
  | none => .error (.parsing (str "Regex VERSION must be used with a download command."))
  | some (dl_cmd, dl_args) =>
    if ¬ cmd_groups.download_cmd dl_cmd then
      .error (.valueError (str "assert download_cmd"))
    else if ¬ cmd_groups.from_file dl_cmd then
      .error (.parsing (str "Regex VERSION not allowed with COPY_SRC or SYMLINK_SRC."))
    else if dl_cmd == Command.DOWNLOAD then
      .error (.parsing (str "Regex VERSION not allowed with DOWNLOAD_FILE."))
    else
      match dl_args with
      | [] => .error Err.indexError
      | url :: _ =>
        let filename := ext.get_name dl_cmd url
        if filename == str "FAILED_DOWNLOAD" then
          .error (.parsing (str "Failed to download the file."))
        else do
          let version ← adjust_regex_version ext.re_version orig_version filename
          pure (version, pySuffixes filename)

/-! ### Structural validation (`parser/parse.py`: `filter_cmds`) -/

/-- The uniqueness loop of `filter_cmds`: each verb of `UNIQUE_CMDS` may
occur at most once. -/
def check_unique : List Command → List Command → Except Err Unit
  | [], _ => .ok ()
  | u :: rest, actual =>
    if actual.count u > 1 then
      .error (.parsing (str "Multiple Command." ++ u.value ++ str " commands."))
    else check_unique rest actual

/-- The `(ix, args[0])` enumeration of the SET commands
(`filter_cmds` lines 294-298); `args[0]` on an empty argument list is an
`IndexError`. -/
def set_entries : Nat → List PCmd → Except Err (List (Nat × Str))
  | _, [] => .ok []
  | ix, (c, args) :: rest =>
    if c == Command.SET then
      match args with
      | [] => .error Err.indexError
      | k :: _ =>
        match set_entries (ix + 1) rest with
        | .error e => .error e
        | .ok tl => .ok ((ix, k) :: tl)
    else set_entries (ix + 1) rest

/-- The fixed-field names rejected as SET keys (`filter_cmds` line 310);
note that `MGR`, `STEM` and `SUFFIXES` are fixed context fields but are not
in this set. -/
def PARAM_SET_KEYS : List Str :=
  [str "NAME", str "DIR", str "REPO", str "DOMAIN", str "VERSION", str "PKG",
   str "FILE"]

/-- The internal-only names rejected as SET keys (`filter_cmds` line 314). -/
def INTERNAL_SET_KEYS : List Str :=
  [str "VARS", str "DEST", str "TAP_FILE", str "CHOCO_FILE", str "AUTHORIZATION"]

/-- The per-key loop of the SET checks (`filter_cmds` lines 309-315). -/
def check_set_keys : List Str → Except Err Unit
  | [] => .ok ()
  | k :: rest =>
    if PARAM_SET_KEYS.contains k then
      .error (.parsing (str "Cannot set parameter keys directly, for version use `VERSION ...`"))
    else if INTERNAL_SET_KEYS.contains k then
      .error (.parsing (str "Cannot set " ++ k ++ str " directly."))
    else check_set_keys rest

/-- The SET checks of `filter_cmds` (applied to the commands after
`VERSION`/`SANDBOX` have been dropped): SET commands must be contiguous from
the front, keys must be pairwise distinct (`len(set_keys) == len(set(...))`),
and no key may be in the two rejected namespaces. -/
def check_set_cmds (cmds : List PCmd) : Except Err Unit :=
  match set_entries 0 cmds with
  | .error e => .error e
  | .ok entries =>
    if ¬ (entries.map Prod.fst = List.range (entries.map Prod.fst).length) then
      .error (.parsing
        (str "SET commands must be in order after VERSION and SANDBOX (if they are present)."))
    else if ¬ ((entries.map Prod.snd).dedup.length = (entries.map Prod.snd).length) then
      .error (.parsing (str "Multiple SET commands with the same key."))
    else check_set_keys (entries.map Prod.snd)

/-- The target-directory derivation of `filter_cmds` (line 317):
`TargetDir.TMP if sandbox else TargetDir.TAP if cask else TargetDir.DEBS`.
The attribute access `TargetDir.TAP` raises `AttributeError` at run time,
because `parser/params.py` defines the members `TMP`, `DEBS`, `BREW` only
(the member was renamed to `BREW` while the docstring and every access site
still say `TAP`). -/
def derive_target_dir (sandbox cask : Bool) : Except Err TargetDir :=
  if sandbox then .ok TargetDir.TMP
  else if cask then .error (.attributeError (str "TAP"))
  else .ok TargetDir.DEBS

/-- `filter_cmds`: uniqueness, download-count, `VERSION`/`SANDBOX` position,
version resolution, SET checks, target-directory derivation and the `MKDIR`
restriction, in source order. -/
def filter_cmds (ext : Oracles) (cmds : List PCmd) :
    Except Err (Str × List Str × TargetDir × List PCmd) := do
  let actual_cmds := cmds.map Prod.fst
  check_unique UNIQUE_CMDS actual_cmds
  let download_cmds := cmds.filter (fun x => DOWNLOAD_CMDS.contains x.1)
  if download_cmds.length > 1 then
    throw (Err.parsing (str "Multiple download commands."))
  let download_cmd := download_cmds.head?
  let state1 ←
    if actual_cmds.contains Command.VERSION then do
      if ¬ (actual_cmds.head? == some Command.VERSION) then
        throw (Err.parsing (str "VERSION command must be first if present."))
      if (download_cmd.map Prod.fst) == some Command.DOWNLOAD_GH then
        throw (Err.parsing (str "VERSION command must not be present if github download command."))
      let version1 ←
        match cmds with
        | (_, v :: _) :: _ => pure v
        | _ => throw Err.indexError
      if (str "gh:").isPrefixOf version1 then do
        let rp := splitOnceOn ':' (version1.drop 3)
        let vs ← get_version_from_github ext.fnmatch (ext.release_of rp.1) rp.2 none
        pure (1, vs.1, vs.2)
      else if (str "re:").isPrefixOf version1 then do
        let vs ← get_version_from_download ext version1 download_cmd
        pure (1, vs.1, vs.2)
      else
        pure (1, version1, ([] : List Str))
    else do
      if ¬ ((download_cmd.map Prod.fst) == some Command.DOWNLOAD_GH) then
        throw (Err.parsing
          (str "VERSION command must be present if no or other than github download command."))
      match download_cmd with
      | some (_, gh_repo :: pattern :: maybe_gh_tag) => do
        let vs ← get_version_from_github ext.fnmatch (ext.release_of gh_repo)
          (some pattern) maybe_gh_tag.head?
        pure (0, vs.1, ([] : List Str))
      | _ => throw (Err.valueError (str "not enough values to unpack"))
  let first_ix0 := state1.1
  let version := state1.2.1
  let suffixes := state1.2.2
  let state2 ←
    if actual_cmds.contains Command.SANDBOX then do
      if ¬ (actual_cmds[first_ix0]? == some Command.SANDBOX) then
        throw (Err.parsing
          (str "SANDBOX command must be after VERSION or at first (if no VERSION) if present."))
      pure (first_ix0 + 1, true)
    else pure (first_ix0, false)
  let first_ix := state2.1
  let sandbox := state2.2
  let cask := actual_cmds.contains Command.CASK
  let cmds1 := cmds.drop first_ix
  check_set_cmds cmds1
  let target_dir ← derive_target_dir sandbox cask
  if ¬ (target_dir == TargetDir.TMP) then
    if actual_cmds.contains Command.MKDIR then
      throw (Err.parsing (str "MKDIR command only allowed in sandbox mode."))
  pure (version, suffixes, target_dir, cmds1)

/-! ### Per-manager passes (`parser/parse.py`: `parse_conda_file`,
`parse_choco_file`) -/

/-- `parse_conda_file`: requires a resolved version, 1-2 commands, a package
folder and a terminal `CONDA`; rewrites the recipe into a recipe-directory
copy plus `CONDA_BUILD` and forces the target directory to `TMP`
(`params["DIR"] = TargetDir.TMP`). -/
def parse_conda_file (params : Params) (cmds : List PCmd) :
    Except Err (Params × List PCmd) :=
  if params.VERSION.isEmpty then
    .error (.parsing (str "No VERSION command found."))
  else if ¬ ((cmds.map Prod.fst).length = 1 ∨ (cmds.map Prod.fst).length = 2) then
    .error (.parsing (str "Invalid number of commands in a .conda file (DOWNLOAD_CMD)."))
  else if params.PKG.isNone then
    .error (.structureErr (str "Not in a package folder."))
  else if (cmds.map Prod.fst).length = 2 ∧ ¬ DOWNLOAD_CMDS.contains (cmds.map Prod.fst).headI then
    .error (.parsing (str "Second command must be a download command."))
  else if ¬ ((cmds.map Prod.fst).getLast? == some Command.CONDA) then
    .error (.parsing (str "Last command must be CONDA."))
  else
      .ok ({ params with DIR := TargetDir.TMP },
        cmds.dropLast ++
          [(Command.COPY_DIR, [str "$PKG/recipe", str "recipe"]),
           (Command.CONDA_BUILD, [])])

/-- `parse_choco_file`: requires a resolved version, 1-2 commands, a package
folder and a terminal `CHOCO`; forces the target directory to `TMP`. -/
def parse_choco_file (params : Params) (cmds : List PCmd) :
    Except Err (Params × List PCmd) :=
  let actual_cmds := cmds.map Prod.fst
  if params.VERSION.isEmpty then
    .error (.parsing (str "No VERSION command found."))
  else if ¬ (actual_cmds.length = 1 ∨ actual_cmds.length = 2) then
    .error (.parsing (str "Invalid number of commands in a .choco file (DOWNLOAD_CMD)."))
  else if params.PKG.isNone then
    .error (.structureErr (str "Not in a package folder."))
  else if ¬ (actual_cmds.getLast? == some Command.CHOCO) then
    .error (.parsing (str "Last command must be CHOCO."))
  else
    .ok ({ params with DIR := TargetDir.TMP }, cmds)

/-! ### Batch loading (`parser/parse.py`: `load_configs`) and the
download check point (`impl/cmds.py`: `download_cmd`) -/

/-- The loading loop of `load_configs`, abstracted over the per-recipe parse
(`parse_tool` performs I/O).  Hidden files are skipped; a `ParsingError` from
one recipe is re-raised immediately with the file context attached — the
remaining files are not visited — and any other error propagates unchanged. -/
def load_configs_go {α : Type} (parse_tool : Str → Except Err α) :
    List Str → Except Err (List α)
  | [] => .ok []
  | tool :: rest =>
    if tool.take 1 == [ '.' ] then load_configs_go parse_tool rest
    else
      match parse_tool tool with
      | .error (.parsing m) =>
        .error (.parsing (str "Error in " ++ tool ++ str ": " ++ m))
      | .error e => .error e
      | .ok cfg =>
        match load_configs_go parse_tool rest with
        | .error e => .error e
        | .ok tl => .ok (cfg :: tl)

/-- `load_configs`: fail on an empty configs folder, then load every file in
order. -/
def load_configs {α : Type} (parse_tool : Str → Except Err α)
    (config_files : List Str) : Except Err (List α) :=
  if config_files.isEmpty then
    .error (.valueError (str "No configuration files found in the configs folder."))
  else load_configs_go parse_tool config_files

/-- The three download back-ends of `impl/download.py` (`from_github`,
`from_file`, `from_src`), abstracted as effects on the context: each performs
I/O and may set the `FILE` field, including to the failure sentinel. -/
structure DlEffects where
  from_github : Params → Except Err Params
  from_file : Params → Except Err Params
  from_src : Params → Except Err Params

namespace impl

/-- The dispatch of `impl.cmds.download_cmd` on the command group. -/
def download_dispatch (eff : DlEffects) (cmd : Command) (p : Params) :
    Except Err Params :=
  if cmd_groups.download_gh cmd then eff.from_github p
  else if cmd_groups.from_file cmd then eff.from_file p
  else if cmd_groups.from_src cmd then eff.from_src p
  else .error (.valueError (str "Unknown command"))

/-- `impl.cmds.download_cmd`: dispatch to the back-end, then raise
`CommandExecutionError` at the single check point when the produced-file
field holds the failure sentinel. -/
def download_cmd (eff : DlEffects) (cmd : Command) (p : Params) :
    Except Err Params :=
  match download_dispatch eff cmd p with
  | .error e => .error e
  | .ok p1 =>
    if p1.FILE == FileField.failedDownload then
      .error (.commandExecution (str "Download failed."))
    else .ok p1

end impl

/-! ### Concrete fixtures for witnesses and counterexamples -/

/-- Trivial oracles: none of their branches are exercised by the concrete
runs below (no `gh:`/`re:` version, no GitHub download). -/
def ext0 : Oracles :=
  { release_of := fun _ => []
    get_name := fun _ _ => []
    re_version := fun _ _ => .error (.valueError [])
    fnmatch := fun _ _ => false }

/-- A sample build context (an apt recipe named `foo` at version `1.0`). -/
def p0 : Params :=
  { NAME := str "foo"
    DIR := TargetDir.TMP
    REPO := str "/repo"
    DOMAIN := str "https://example.org"
    MGR := PackageManager.APT
    VERSION := str "1.0"
    PKG := none
    FILE := FileField.noFile
    VARS := []
    AUTHORIZATION := str "auth"
    STEM := str "foo|1.0|apt"
    SUFFIXES := [] }

/-- A conda-recipe context inside a package folder, with the generic target
directory `DEBS` still set. -/
def p0conda : Params :=
  { p0 with MGR := PackageManager.CONDA, DIR := TargetDir.DEBS,
            PKG := some (str "/repo/configs/foo.conda") }

/-- A choco-recipe context inside a package folder, with the generic target
directory `DEBS` still set. -/
def p0choco : Params :=
  { p0 with MGR := PackageManager.CHOCO, DIR := TargetDir.DEBS,
            PKG := some (str "/repo/configs/foo.choco") }

/-- Download effects whose back-ends all end with the produced-file field set
to the failure sentinel. -/
def effFail : DlEffects :=
  { from_github := fun p => .ok { p with FILE := FileField.failedDownload }
    from_file := fun p => .ok { p with FILE := FileField.failedDownload }
    from_src := fun p => .ok { p with FILE := FileField.failedDownload } }

/-- A concrete `fnmatch.fnmatch` oracle for the release fixture below: the
glob `tool*` matches exactly the names beginning in `tool`
(`fnmatch.fnmatch("tool.deb", "tool*")` is true). -/
def fnmatch1 (name pattern : Str) : Bool :=
  pattern == str "tool*" && (str "tool").isPrefixOf name

/-- The lines of a newline-joined block argument: `arg.split("\n")` without
the trailing empty piece contributed by the final newline. -/
def argLines (s : Str) : List Str := (splitOnChar '\n' s).dropLast

/-- The character set `[0-9.\-_]` that the specification claims for sanitized
GitHub versions (stated from the claim, for comparison with
`sanitize_version`). -/
def spec_version_charset (c : Char) : Bool :=
  c.isDigit || c == '.' || c == '-' || c == '_'

/-- The positions (indices) of the SET commands in a command list, counting
from `n`: the statement-side projection of `set_entries`. -/
def set_ix_of : Nat → List PCmd → List Nat
  | _, [] => []
  | n, (c, _) :: rest =>
    if c == Command.SET then n :: set_ix_of (n + 1) rest else set_ix_of (n + 1) rest

/-- The keys of the SET commands of a command list, in order: the
statement-side projection of `set_entries`. -/
def set_keys_of : List PCmd → List Str
  | [] => []
  | (c, args) :: rest =>
    if c == Command.SET then args.headI :: set_keys_of rest else set_keys_of rest

/-! ## Claim theorems -/

/-- Claim C3 (code bug): tokenizing a continuation line indented *less* than
the block's established prefix does not fail — `str.removeprefix` never
raises, so the `except AttributeError` arm guarding the
"Found a line with less indentation than the first." error is unreachable and
the under-indented line is kept verbatim inside the synthetic argument. -/
theorem read_lines_accepts_partial_dedent :
    read_lines [str "CMD", str "    a", str "  b"] =
      .ok [(str "CMD", [str "a\n  b\n"])] := by decide

/-- Claim C5 (code bug): the derived target directory is `TMP` under
`SANDBOX` and `DEBS` in the default case, and the CONDA/CHOCO passes force
`TMP`; but the `CASK`-without-`SANDBOX` case raises `AttributeError` instead
of yielding the tap directory, because `TargetDir` has no member `TAP`
(the member was renamed `BREW` while `parse.py` line 317 still reads
`TargetDir.TAP`). -/
theorem filter_cmds_target_dir_tap_bug :
    filter_cmds ext0 [(Command.VERSION, [str "1.0"]), (Command.SANDBOX, [])] =
      .ok (str "1.0", [], TargetDir.TMP, []) ∧
    filter_cmds ext0 [(Command.VERSION, [str "1.0"])] =
      .ok (str "1.0", [], TargetDir.DEBS, []) ∧
    filter_cmds ext0 [(Command.VERSION, [str "1.0"]), (Command.CASK, [str "c"])] =
      .error (.attributeError (str "TAP")) ∧
    (parse_conda_file p0conda [(Command.CONDA, [])]).map (fun r => r.1.DIR) =
      .ok TargetDir.TMP ∧
    (parse_choco_file p0choco [(Command.CHOCO, [])]).map (fun r => r.1.DIR) =
      .ok TargetDir.TMP := by decide

/-- Claim C6 (code bug): resolving release data `{"V2.0-rc1": ["tool.deb"]}`
in pattern-only mode (glob `tool*`, no tag) scans the tags in listing order,
finds the single match `tool.deb` under `V2.0-rc1`, and returns the version
`"V2.01"`: the unescaped `-` in `re.sub(r"[^\d.-_]", "", ...)` forms the
character range `.-_`, so the uppercase `V` survives sanitization while the
`-` itself is stripped — the result is not drawn from the claimed set
`[0-9.\-_]`. -/
theorem get_version_from_github_sanitize_bug :
    get_version_from_github fnmatch1 [(str "V2.0-rc1", [str "tool.deb"])]
        (some (str "tool*")) none =
      .ok (str "V2.01", [str ".deb"]) ∧
    fnmatch1 (str "tool.deb") (str "tool*") = true ∧
    (str "V2.01").all spec_version_charset = false := by decide

/-- Claim C7 (counterexample): the suffix chain `[".bak", ".tar", ".gz"]`
does not fail the extension filter — the disallowed `.bak` is simply dropped
and the trailing allowed run is returned. -/
theorem filter_exts_bak_prefix_passes :
    filter_exts [str ".bak", str ".tar", str ".gz"] = .ok [str ".tar", str ".gz"] := by
  decide

/-- Claim C7 (amended): `[".tar", ".gz"]` passes unchanged;
`[".bak", ".tar", ".gz"]` also passes, returning the trailing allowed run
`[".tar", ".gz"]`; the filter fails precisely in the mirrored situation where
an allowed suffix precedes a disallowed one, e.g. `[".tar", ".gz", ".bak"]`. -/
theorem filter_exts_trailing_run :
    filter_exts [str ".tar", str ".gz"] = .ok [str ".tar", str ".gz"] ∧
    filter_exts [str ".bak", str ".tar", str ".gz"] = .ok [str ".tar", str ".gz"] ∧
    isErr (filter_exts [str ".tar", str ".gz", str ".bak"]) = true := by decide

/-- Claim C2 (counterexample): the substitution engine `fix_vars` is total —
given the context `{name="foo", version="1.0"}` it substitutes
`"$NAME-$VERSION.tar"` to `"foo-1.0.tar"`, but a template with the undefined
`$UNKNOWN` is returned as literal text instead of failing. -/
theorem fix_vars_returns_literal_text :
    fix_vars p0 (str "$NAME-$VERSION.tar") [] = str "foo-1.0.tar" ∧
    fix_vars p0 (str "$UNKNOWN") [] = str "$UNKNOWN" := by decide

/-- Claim C4 (counterexample): a `SET` whose key is the fixed context field
`STEM` passes the full structural validation — only the seven names of
`PARAM_SET_KEYS` and the five of `INTERNAL_SET_KEYS` are rejected, so the
fixed fields `MGR`, `STEM` and `SUFFIXES` are not shielded. -/
theorem filter_cmds_set_stem_passes :
    filter_cmds ext0 [(Command.VERSION, [str "1.0"]), (Command.SET, [str "STEM", str "x"])] =
      .ok (str "1.0", [], TargetDir.DEBS, [(Command.SET, [str "STEM", str "x"])]) ∧
    str "STEM" ∈ paramKeys := by decide

/-- Claim C9 (counterexample): for the block `["  a", " b"]` (second line
indented less than the recorded prefix `"  "`), the tokenizer produces the
synthetic argument `"a\n b\n"`, and prepending the recorded prefix to its
lines does not reconstruct the original block. -/
theorem read_lines_reconstruct_fails :
    read_lines [str "CMD", str "  a", str " b"] =
      .ok [(str "CMD", [str "a\n b\n"])] ∧
    (argLines (str "a\n b\n")).map (fun l => pyLeadingWS (str "  a") ++ l) ≠
      [str "  a", str " b"] := by decide

/-- Claim C1 (counterexample): with a batch of two recipes where the first
raises a `ParsingError`, `load_configs` aborts the whole batch — it re-raises
the wrapped error and never returns the second recipe's configuration, even
though that recipe parses fine on its own. -/
theorem load_configs_aborts_batch :
    load_configs
        (fun f => if f == str "a.rep" then (.error (.parsing (str "bad")) : Except Err Nat)
                  else .ok 0)
        [str "a.rep", str "b.rep"] =
      .error (.parsing (str "Error in a.rep: bad")) ∧
    (fun f => if f == str "a.rep" then (.error (.parsing (str "bad")) : Except Err Nat)
              else .ok 0) (str "b.rep") = .ok 0 := by decide

/-- Claim C8 (confirmed): whenever a download-family dispatch finishes with
the produced-file field equal to the failure sentinel, `impl.download_cmd`
raises the hard `CommandExecutionError` at the single check point immediately
after the dispatch. -/
theorem download_cmd_sentinel_hard_error (eff : DlEffects) (cmd : Command)
    (p p1 : Params) (hd : impl.download_dispatch eff cmd p = .ok p1)
    (hf : p1.FILE = FileField.failedDownload) :
    impl.download_cmd eff cmd p = .error (.commandExecution (str "Download failed.")) := by
  unfold impl.download_cmd
  rw [hd]
  dsimp only
  rw [hf]
  rfl

/-- Witness for C8: a browser-style download that ends in the sentinel makes
the interpreter raise the hard error. -/
theorem download_cmd_sentinel_hard_error_witness :
    impl.download_dispatch effFail Command.DOWNLOAD p0 =
      .ok { p0 with FILE := FileField.failedDownload } ∧
    ({ p0 with FILE := FileField.failedDownload } : Params).FILE =
      FileField.failedDownload ∧
    impl.download_cmd effFail Command.DOWNLOAD p0 =
      .error (.commandExecution (str "Download failed.")) :=
  ⟨by decide, by decide,
   download_cmd_sentinel_hard_error effFail Command.DOWNLOAD p0
     { p0 with FILE := FileField.failedDownload } (by decide) (by decide)⟩

/-- A verb that `parse_single_cmd` accepts is never `CONDA_BUILD`. -/
theorem parse_single_cmd_ok_ne_conda_build (c : Str) (pc : Command)
    (h : parse_single_cmd c = .ok pc) : pc ≠ Command.CONDA_BUILD := by
  unfold parse_single_cmd at h
  cases hof : Command.ofString c with
  | none => rw [hof] at h; cases h
  | some q =>
    rw [hof] at h
    dsimp only at h
    by_cases hq : q == Command.CONDA_BUILD
    · rw [if_pos hq] at h; cases h
    · rw [if_neg hq] at h
      cases h
      intro he
      exact hq (by rw [he]; rfl)

/-- A line list containing a `CONDA_BUILD` verb makes `parse_all` fail. -/
theorem parse_all_err_of_conda_build :
    ∀ (lines : List (Str × List Str)),
      str "CONDA_BUILD" ∈ lines.map Prod.fst → isErr (parse_all lines) = true := by
  intro lines
  induction lines with
  | nil => intro h; cases h
  | cons hd tl ih =>
    obtain ⟨c, args⟩ := hd
    intro hmem
    simp only [List.map_cons, List.mem_cons] at hmem
    unfold parse_all
    rcases hmem with heq | hmem
    · have hc : c = str "CONDA_BUILD" := heq.symm
      subst hc
      have hps : parse_single_cmd (str "CONDA_BUILD") =
          .error (.parsing (str "CONDA_BUILD command not allowed! Use CONDA instead.")) := by
        decide
      rw [hps]
      rfl
    · cases hps : parse_single_cmd c with
      | error e => rfl
      | ok pc =>
        have htl := ih hmem
        cases hpa : parse_all tl with
        | error e => rfl
        | ok prest => rw [hpa] at htl; cases htl

/-- A successfully parsed command list never contains `CONDA_BUILD`. -/
theorem parse_all_ok_no_conda_build :
    ∀ (lines : List (Str × List Str)) (cmds : List PCmd),
      parse_all lines = .ok cmds → Command.CONDA_BUILD ∉ cmds.map Prod.fst := by
  intro lines
  induction lines with
  | nil =>
    intro cmds h
    cases h
    intro hmem
    cases hmem
  | cons hd tl ih =>
    obtain ⟨c, args⟩ := hd
    intro cmds h
    unfold parse_all at h
    cases hps : parse_single_cmd c with
    | error e => rw [hps] at h; cases h
    | ok pc =>
      rw [hps] at h
      cases hpa : parse_all tl with
      | error e => rw [hpa] at h; cases h
      | ok prest =>
        rw [hpa] at h
        cases h
        simp only [List.map_cons, List.mem_cons]
        rintro (heq | hmem)
        · exact parse_single_cmd_ok_ne_conda_build c pc hps heq.symm
        · exact ih prest hpa hmem

/-- Claim C10 (confirmed): `CONDA_BUILD` is a member of the command enum, yet
`parse_single_cmd` rejects it with a parsing error, so parsing any recipe
whose tokenized lines contain the verb fails, a successfully parsed recipe
never contains `CONDA_BUILD`, and the command arises only from the
validation-time rewrite performed by `parse_conda_file`. -/
theorem conda_build_only_internal :
    Command.ofString (str "CONDA_BUILD") = some Command.CONDA_BUILD ∧
    parse_single_cmd (str "CONDA_BUILD") =
      .error (.parsing (str "CONDA_BUILD command not allowed! Use CONDA instead.")) ∧
    (∀ (inputs : List Str) (lines : List (Str × List Str)),
      read_lines inputs = .ok lines →
      str "CONDA_BUILD" ∈ lines.map Prod.fst →
      isErr (parse_cmds inputs) = true) ∧
    (∀ (inputs : List Str) (cmds : List PCmd),
      parse_cmds inputs = .ok cmds → Command.CONDA_BUILD ∉ cmds.map Prod.fst) ∧
    (∀ (params : Params) (cmds : List PCmd) (out : Params × List PCmd),
      parse_conda_file params cmds = .ok out →
      Command.CONDA_BUILD ∈ out.2.map Prod.fst) := by
  refine ⟨by decide, by decide, ?_, ?_, ?_⟩
  · intro inputs lines hrl hmem
    unfold parse_cmds
    rw [hrl]
    show isErr
        (match parse_all lines with
         | .error e => .error e
         | .ok cmds =>
           match check_all_args cmds with
           | .error e => .error e
           | .ok _ => .ok cmds) = true
    have herr := parse_all_err_of_conda_build lines hmem
    cases hpa : parse_all lines with
    | error e => rfl
    | ok cmds => rw [hpa] at herr; cases herr
  · intro inputs cmds hok
    unfold parse_cmds at hok
    split at hok
    · cases hok
    · split at hok
      · cases hok
      · split at hok
        · cases hok
        · cases hok
          exact parse_all_ok_no_conda_build _ _ (by assumption)
  · intro params cmds out hok
    unfold parse_conda_file at hok
    split at hok
    · cases hok
    · split at hok
      · cases hok
      · split at hok
        · cases hok
        · split at hok
          · cases hok
          · split at hok
            · cases hok
            · cases hok
              simp [List.map_append]

/-- Witness for C10: a one-line recipe consisting of the verb `CONDA_BUILD`
tokenizes but fails to parse. -/
theorem conda_build_only_internal_witness :
    read_lines [str "CONDA_BUILD"] = .ok [(str "CONDA_BUILD", [])] ∧
    str "CONDA_BUILD" ∈ ([(str "CONDA_BUILD", ([] : List Str))].map Prod.fst) ∧
    isErr (parse_cmds [str "CONDA_BUILD"]) = true :=
  ⟨by decide, by decide,
   conda_build_only_internal.2.2.1 [str "CONDA_BUILD"] [(str "CONDA_BUILD", [])]
     (by decide) (by decide)⟩

/-- The loading loop propagates the error of any visited (non-hidden) file:
nothing catches it, so the rest of the batch is never reached. -/
theorem load_configs_go_err {α : Type} (parse_tool : Str → Except Err α) :
    ∀ (files : List Str) (f : Str), f ∈ files → f.take 1 ≠ [ '.' ] →
      isErr (parse_tool f) = true → isErr (load_configs_go parse_tool files) = true := by
  intro files
  induction files with
  | nil => intro f hmem; cases hmem
  | cons t rest ih =>
    intro f hmem hvis herr
    unfold load_configs_go
    by_cases ht : (t.take 1 == [ '.' ]) = true
    · rw [if_pos ht]
      rcases List.mem_cons.mp hmem with heq | hmem2
      · subst heq
        exact absurd (eq_of_beq ht) hvis
      · exact ih f hmem2 hvis herr
    · rw [if_neg ht]
      cases hpt : parse_tool t with
      | error e => cases e <;> rfl
      | ok v =>
        rcases List.mem_cons.mp hmem with heq | hmem2
        · subst heq
          rw [hpt] at herr
          cases herr
        · have hrest := ih f hmem2 hvis herr
          cases hgo : load_configs_go parse_tool rest with
          | error e => rfl
          | ok tl => rw [hgo] at hrest; cases hrest

/-- Claim C1 (amended): an error raised while loading any (non-hidden) recipe
of the batch makes the whole `load_configs` call fail — the other recipes are
not returned; there is no per-recipe containment. -/
theorem load_error_aborts_batch {α : Type} (parse_tool : Str → Except Err α)
    (files : List Str) (f : Str) (hmem : f ∈ files) (hvis : f.take 1 ≠ [ '.' ])
    (herr : isErr (parse_tool f) = true) :
    isErr (load_configs parse_tool files) = true := by
  unfold load_configs
  have hne : files.isEmpty = false := by
    cases files with
    | nil => cases hmem
    | cons t rest => rfl
  rw [hne]
  exact load_configs_go_err parse_tool files f hmem hvis herr

/-- Witness for C1 (amended): a single-file batch whose recipe fails to load
makes the whole call fail. -/
theorem load_error_aborts_batch_witness :
    (str "x.rep" ∈ [str "x.rep"]) ∧
    (str "x.rep").take 1 ≠ [ '.' ] ∧
    isErr ((fun _ => (.error (.valueError (str "v")) : Except Err Nat)) (str "x.rep")) = true ∧
    isErr (load_configs (fun _ => (.error (.valueError (str "v")) : Except Err Nat))
      [str "x.rep"]) = true :=
  ⟨by decide, by decide, by decide,
   load_error_aborts_batch (fun _ => (.error (.valueError (str "v")) : Except Err Nat))
     [str "x.rep"] (str "x.rep") (by decide) (by decide) (by decide)⟩

/-- A substring occurrence puts every character of the pattern into the
containing string. -/
theorem isSubstr_mem_of_mem (sub s : Str) (c : Char) (hc : c ∈ sub)
    (h : isSubstr sub s = true) : c ∈ s := by
  unfold isSubstr at h
  rw [List.any_eq_true] at h
  obtain ⟨t, ht, hp⟩ := h
  rw [List.mem_tails] at ht
  rw [List.isPrefixOf_iff_prefix] at hp
  exact ht.subset (hp.subset hc)

/-- Bool-level membership bridge for `List.contains`. -/
theorem contains_iff_mem {α : Type} [BEq α] [LawfulBEq α] (l : List α) (a : α) :
    l.contains a = true ↔ a ∈ l := by
  simp [List.contains, List.elem_iff]

/-- Claim C2 (amended): the `SET` handler raises a hard `VariableError`
exactly when the substituted value still contains a `$` reference (a fixed
context field or an unknown variable); elsewhere substitution is total and
leaves such references in the text. -/
theorem set_cmd_rejects_residual_refs (p : Params) (key value : Str) :
    isErr (set_cmd p [key, value]) = true ↔ '$' ∈ set_value p value := by
  unfold set_cmd
  dsimp only
  constructor
  · intro h
    by_cases h1 : (paramKeys.any (fun k => isSubstr ('$' :: k) (set_value p value))) = true
    · rw [List.any_eq_true] at h1
      obtain ⟨k, hk, hsub⟩ := h1
      exact isSubstr_mem_of_mem _ _ '$' (List.mem_cons_self _ _) hsub
    · rw [if_neg h1] at h
      by_cases h2 : ((set_value p value).contains '$') = true
      · exact (contains_iff_mem _ _).mp h2
      · rw [if_neg h2] at h
        cases h
  · intro hmem
    by_cases h1 : (paramKeys.any (fun k => isSubstr ('$' :: k) (set_value p value))) = true
    · rw [if_pos h1]
      rfl
    · rw [if_neg h1]
      have h2 : ((set_value p value).contains '$') = true :=
        (contains_iff_mem _ _).mpr hmem
      rw [if_pos h2]
      rfl

/-- The two SET projections have the same length. -/
theorem set_proj_lengths (cmds : List PCmd) :
    ∀ n, (set_ix_of n cmds).length = (set_keys_of cmds).length := by
  induction cmds with
  | nil => intro n; rfl
  | cons hd tl ih =>
    intro n
    obtain ⟨c, args⟩ := hd
    unfold set_ix_of set_keys_of
    by_cases hc : (c == Command.SET) = true
    · rw [if_pos hc, if_pos hc]
      simp [ih (n + 1)]
    · rw [if_neg hc, if_neg hc]
      exact ih (n + 1)

/-- When every SET command carries at least a key argument, `set_entries`
succeeds and produces exactly the zipped projections. -/
theorem set_entries_eq (cmds : List PCmd)
    (h : ∀ pc ∈ cmds, pc.1 = Command.SET → pc.2 ≠ []) :
    ∀ n, set_entries n cmds = .ok ((set_ix_of n cmds).zip (set_keys_of cmds)) := by
  induction cmds with
  | nil => intro n; rfl
  | cons hd tl ih =>
    intro n
    obtain ⟨c, args⟩ := hd
    have htl : ∀ pc ∈ tl, pc.1 = Command.SET → pc.2 ≠ [] :=
      fun pc hm => h pc (List.mem_cons_of_mem _ hm)
    unfold set_entries set_ix_of set_keys_of
    by_cases hc : (c == Command.SET) = true
    · rw [if_pos hc, if_pos hc, if_pos hc]
      have hargs : args ≠ [] := h (c, args) (List.mem_cons_self _ _) (eq_of_beq hc)
      cases args with
      | nil => exact absurd rfl hargs
      | cons k krest =>
        rw [ih htl (n + 1)]
        rfl
    · rw [if_neg hc, if_neg hc, if_neg hc]
      exact ih htl (n + 1)

/-- A list deduplicates to its own length exactly when it has no
duplicates. -/
theorem dedup_length_iff {α : Type} [DecidableEq α] (l : List α) :
    l.dedup.length = l.length ↔ l.Nodup := by
  constructor
  · intro h
    have hs := List.dedup_sublist l
    have he := hs.eq_of_length h
    rw [← he]
    exact List.nodup_dedup l
  · intro h
    rw [h.dedup]

/-- The key loop accepts exactly the key lists avoiding both rejected
namespaces. -/
theorem check_set_keys_iff (keys : List Str) :
    check_set_keys keys = .ok () ↔
      ∀ k ∈ keys, k ∉ PARAM_SET_KEYS ∧ k ∉ INTERNAL_SET_KEYS := by
  induction keys with
  | nil =>
    constructor
    · intro _ k hk; cases hk
    · intro _; rfl
  | cons k rest ih =>
    unfold check_set_keys
    by_cases h1 : (PARAM_SET_KEYS.contains k) = true
    · rw [if_pos h1]
      constructor
      · intro h; cases h
      · intro h
        exact absurd ((contains_iff_mem _ _).mp h1)
          (h k (List.mem_cons_self _ _)).1
    · rw [if_neg h1]
      by_cases h2 : (INTERNAL_SET_KEYS.contains k) = true
      · rw [if_pos h2]
        constructor
        · intro h; cases h
        · intro h
          exact absurd ((contains_iff_mem _ _).mp h2)
            (h k (List.mem_cons_self _ _)).2
      · rw [if_neg h2]
        rw [ih]
        constructor
        · intro h k2 hk2
          rcases List.mem_cons.mp hk2 with heq | hm
          · subst heq
            exact ⟨fun hmem => h1 ((contains_iff_mem _ _).mpr hmem),
                   fun hmem => h2 ((contains_iff_mem _ _).mpr hmem)⟩
          · exact h k2 hm
        · intro h k2 hk2
          exact h k2 (List.mem_cons_of_mem _ hk2)

/-- Claim C4 (amended): provided each SET command carries a key (guaranteed
upstream by the arity check), the SET checks of the validator accept a
command list exactly when the SET commands are contiguous from the front,
their keys are pairwise distinct, and no key lies in `PARAM_SET_KEYS`
(`NAME`, `DIR`, `REPO`, `DOMAIN`, `VERSION`, `PKG`, `FILE`) or
`INTERNAL_SET_KEYS` (`VARS`, `DEST`, `TAP_FILE`, `CHOCO_FILE`,
`AUTHORIZATION`) — in particular the fixed context fields `MGR`, `STEM` and
`SUFFIXES` are not rejected. -/
theorem check_set_cmds_iff (cmds : List PCmd)
    (h : ∀ pc ∈ cmds, pc.1 = Command.SET → pc.2 ≠ []) :
    check_set_cmds cmds = .ok () ↔
      (set_ix_of 0 cmds = List.range (set_ix_of 0 cmds).length ∧
       (set_keys_of cmds).Nodup ∧
       ∀ k ∈ set_keys_of cmds, k ∉ PARAM_SET_KEYS ∧ k ∉ INTERNAL_SET_KEYS) := by
  unfold check_set_cmds
  rw [set_entries_eq cmds h 0]
  dsimp only
  have hlen := set_proj_lengths cmds 0
  rw [List.map_fst_zip _ _ (le_of_eq hlen), List.map_snd_zip _ _ (le_of_eq hlen.symm)]
  by_cases hA : set_ix_of 0 cmds = List.range (set_ix_of 0 cmds).length
  · rw [if_neg (by simpa using hA)]
    by_cases hB : (set_keys_of cmds).dedup.length = (set_keys_of cmds).length
    · rw [if_neg (by simpa using hB)]
      rw [check_set_keys_iff]
      constructor
      · intro hk
        exact ⟨hA, (dedup_length_iff _).mp hB, hk⟩
      · intro hk
        exact hk.2.2
    · rw [if_pos (by simpa using hB)]
      constructor
      · intro hfalse; cases hfalse
      · intro hk
        exact absurd ((dedup_length_iff _).mpr hk.2.1) hB
  · rw [if_pos (by simpa using hA)]
    constructor
    · intro hfalse; cases hfalse
    · intro hk
      exact absurd hk.1 hA

/-- Witness for C4 (amended): two SET commands with the distinct admissible
keys `A` and `B` pass the SET checks. -/
theorem check_set_cmds_iff_witness :
    (∀ pc ∈ [(Command.SET, [str "A", str "1"]), (Command.SET, [str "B", str "2"])],
      pc.1 = Command.SET → pc.2 ≠ []) ∧
    (check_set_cmds [(Command.SET, [str "A", str "1"]), (Command.SET, [str "B", str "2"])] =
        .ok () ↔
      (set_ix_of 0 [(Command.SET, [str "A", str "1"]), (Command.SET, [str "B", str "2"])] =
        List.range (set_ix_of 0 [(Command.SET, [str "A", str "1"]),
          (Command.SET, [str "B", str "2"])]).length ∧
       (set_keys_of [(Command.SET, [str "A", str "1"]),
          (Command.SET, [str "B", str "2"])]).Nodup ∧
       ∀ k ∈ set_keys_of [(Command.SET, [str "A", str "1"]),
          (Command.SET, [str "B", str "2"])],
         k ∉ PARAM_SET_KEYS ∧ k ∉ INTERNAL_SET_KEYS)) :=
  ⟨by decide,
   check_set_cmds_iff [(Command.SET, [str "A", str "1"]), (Command.SET, [str "B", str "2"])]
     (by decide)⟩

/-- Appending to the last element of a snoc list. -/
theorem append_to_last_snoc (x s : Str) : ∀ (xs : List Str),
    append_to_last (xs ++ [x]) s = xs ++ [x ++ s] := by
  intro xs
  induction xs with
  | nil => rfl
  | cons y ys ih =>
    cases ys with
    | nil => rfl
    | cons z zs =>
      show y :: append_to_last (z :: zs ++ [x]) s = y :: (z :: zs ++ [x ++ s])
      rw [ih]

/-- An indented line has a non-empty leading-whitespace run. -/
theorem pyLeadingWS_ne_nil (l : Str)
    (h : l.take 1 = [ ' ' ] ∨ l.take 1 = [ '\t' ]) : pyLeadingWS l ≠ [] := by
  cases l with
  | nil => rcases h with h | h <;> cases h
  | cons c rest =>
    have hc : isPySpace c = true := by
      rcases h with h | h <;>
        · simp only [List.take] at h
          injection h with h1 _
          rw [h1]
          rfl
    unfold pyLeadingWS
    rw [List.takeWhile_cons, hc]
    simp

/-- A non-blank indented line is not skipped by the tokenizer. -/
theorem not_skipped_of_block_line (l : Str)
    (hind : l.take 1 = [ ' ' ] ∨ l.take 1 = [ '\t' ])
    (hstrip : pyStrip l ≠ []) : skippedLine l = false := by
  unfold skippedLine
  have h1 : (pyStrip l).isEmpty = false := by
    cases hq : pyStrip l with
    | nil => exact absurd hq hstrip
    | cons a b => rfl
  have h2 : (l.take 1 == [ '#' ]) = false := by
    rcases hind with h | h <;> rw [h] <;> rfl
  rw [h1, h2]
  rfl

/-- A line starting in a space or tab is an indented continuation line. -/
theorem indented_of_block_line (l : Str)
    (hind : l.take 1 = [ ' ' ] ∨ l.take 1 = [ '\t' ]) : indentedLine l = true := by
  unfold indentedLine
  rcases hind with h | h <;> rw [h] <;> rfl

/-- Stepping the tokenizer over a command line. -/
theorem read_lines_go_cmd (line : Str) (rest : List Str)
    (acc : List (Str × List Str)) (indent : Str) (verb : Str) (args : List Str)
    (hskip : skippedLine line = false) (hind : indentedLine line = false)
    (htok : shlexSplit line = verb :: args) :
    read_lines_go (line :: rest) acc indent =
      read_lines_go rest ((verb, args) :: acc) [] := by
  conv_lhs => rw [read_lines_go.eq_def]
  dsimp only
  rw [hskip, hind, htok]
  rfl

/-- Stepping the tokenizer over the first line of a continuation block (no
indentation prefix is established yet). -/
theorem read_lines_go_first_indent (line : Str) (rest : List Str) (cmd : Str)
    (args : List Str) (accTail : List (Str × List Str))
    (hskip : skippedLine line = false) (hind : indentedLine line = true) :
    read_lines_go (line :: rest) ((cmd, args) :: accTail) [] =
      read_lines_go rest
        ((cmd, append_to_last (args ++ [[]])
          (pyRemovePre (pyLeadingWS line) line ++ [ '\n' ])) :: accTail)
        (pyLeadingWS line) := by
  conv_lhs => rw [read_lines_go.eq_def]
  dsimp only
  rw [hskip, hind]
  rfl

/-- Stepping the tokenizer over a continuation line of an open block. -/
theorem read_lines_go_cont (line : Str) (rest : List Str) (cmd : Str)
    (args : List Str) (accTail : List (Str × List Str)) (indent : Str)
    (hpre : indent ≠ [])
    (hskip : skippedLine line = false) (hind : indentedLine line = true) :
    read_lines_go (line :: rest) ((cmd, args) :: accTail) indent =
      read_lines_go rest
        ((cmd, append_to_last args (pyRemovePre indent line ++ [ '\n' ])) :: accTail)
        indent := by
  have hpe : indent.isEmpty = false := by
    cases indent with
    | nil => exact absurd rfl hpre
    | cons a b => rfl
  conv_lhs => rw [read_lines_go.eq_def]
  dsimp only
  rw [hskip, hind, hpe]
  rfl

/-- Running the tokenizer over the remaining lines of a continuation block
whose every line is compatible with the established prefix accumulates the
stripped lines, newline-separated, into the pending argument. -/
theorem read_lines_go_block (pre : Str) (hpre : pre ≠ []) :
    ∀ (blk : List Str) (cmd : Str) (args : List Str) (cur : Str)
      (accTail : List (Str × List Str)),
      (∀ l ∈ blk, (l.take 1 = [ ' ' ] ∨ l.take 1 = [ '\t' ]) ∧ pyStrip l ≠ []) →
      read_lines_go blk ((cmd, args ++ [cur]) :: accTail) pre =
        .ok (((cmd, args ++
          [cur ++ (blk.map (fun l => pyRemovePre pre l ++ [ '\n' ])).flatten]) ::
            accTail).reverse) := by
  intro blk
  induction blk with
  | nil =>
    intro cmd args cur accTail hb
    simp [read_lines_go]
  | cons l rest ih =>
    intro cmd args cur accTail hb
    obtain ⟨hind, hstrip⟩ := hb l (List.mem_cons_self _ _)
    have hskip := not_skipped_of_block_line l hind hstrip
    have hindT := indented_of_block_line l hind
    rw [read_lines_go_cont l rest cmd (args ++ [cur]) accTail pre hpre hskip hindT]
    rw [append_to_last_snoc]
    rw [ih cmd args (cur ++ (pyRemovePre pre l ++ [ '\n' ])) accTail
      (fun l2 hm => hb l2 (List.mem_cons_of_mem _ hm))]
    simp [List.append_assoc]

/-- Claim C9 (amended): for a continuation block whose every line actually
starts with the prefix recorded from its first line, the tokenizer attaches
one synthetic trailing argument that is exactly the newline-join of the
prefix-stripped lines, and prepending the recorded prefix to each stripped
line reconstructs the original line.  (Without the prefix hypothesis the
round trip fails: see the counterexample.) -/
theorem read_lines_block_reconstruct (cmdLine verb : Str) (args : List Str)
    (block : List Str)
    (htok : shlexSplit cmdLine = verb :: args)
    (hskip : skippedLine cmdLine = false)
    (hind : indentedLine cmdLine = false)
    (hbne : block ≠ [])
    (hblock : ∀ l ∈ block, (l.take 1 = [ ' ' ] ∨ l.take 1 = [ '\t' ]) ∧ pyStrip l ≠ [])
    (hpfx : ∀ l ∈ block, (pyLeadingWS block.headI).isPrefixOf l) :
    read_lines (cmdLine :: block) =
      .ok [(verb, args ++
        [(block.map (fun l =>
          pyRemovePre (pyLeadingWS block.headI) l ++ [ '\n' ])).flatten])] ∧
    ∀ l ∈ block,
      pyLeadingWS block.headI ++ pyRemovePre (pyLeadingWS block.headI) l = l := by
  cases block with
  | nil => exact absurd rfl hbne
  | cons l0 rest =>
    have hl0 := hblock l0 (List.mem_cons_self _ _)
    have hpre0 : pyLeadingWS l0 ≠ [] := pyLeadingWS_ne_nil l0 hl0.1
    have hskip0 := not_skipped_of_block_line l0 hl0.1 hl0.2
    have hind0 := indented_of_block_line l0 hl0.1
    constructor
    · unfold read_lines
      rw [read_lines_go_cmd cmdLine (l0 :: rest) [] [] verb args hskip hind htok]
      rw [read_lines_go_first_indent l0 rest verb args [] hskip0 hind0]
      rw [append_to_last_snoc]
      rw [read_lines_go_block (pyLeadingWS l0) hpre0 rest verb args
        ([] ++ (pyRemovePre (pyLeadingWS l0) l0 ++ [ '\n' ])) []
        (fun l2 hm => hblock l2 (List.mem_cons_of_mem _ hm))]
      simp
    · intro l hl
      have hp := hpfx l hl
      rw [List.isPrefixOf_iff_prefix] at hp
      obtain ⟨t, ht⟩ := hp
      unfold pyRemovePre
      rw [if_pos (hpfx l hl)]
      rw [← ht, List.drop_left]

/-- Witness for C9 (amended): the block `["  x", "  y"]` under the command
line `"CMD a"` round-trips through the tokenizer. -/
theorem read_lines_block_reconstruct_witness :
    shlexSplit (str "CMD a") = str "CMD" :: [str "a"] ∧
    skippedLine (str "CMD a") = false ∧
    indentedLine (str "CMD a") = false ∧
    ([str "  x", str "  y"] ≠ ([] : List Str)) ∧
    (∀ l ∈ [str "  x", str "  y"],
      (l.take 1 = [ ' ' ] ∨ l.take 1 = [ '\t' ]) ∧ pyStrip l ≠ []) ∧
    (∀ l ∈ [str "  x", str "  y"],
      (pyLeadingWS ([str "  x", str "  y"]).headI).isPrefixOf l) ∧
    (read_lines (str "CMD a" :: [str "  x", str "  y"]) =
      .ok [(str "CMD", [str "a"] ++
        [(([str "  x", str "  y"]).map (fun l =>
          pyRemovePre (pyLeadingWS ([str "  x", str "  y"]).headI) l ++
            [ '\n' ])).flatten])] ∧
     ∀ l ∈ [str "  x", str "  y"],
       pyLeadingWS ([str "  x", str "  y"]).headI ++
         pyRemovePre (pyLeadingWS ([str "  x", str "  y"]).headI) l = l) :=
  ⟨by decide, by decide, by decide, by decide, by decide, by decide,
   read_lines_block_reconstruct (str "CMD a") (str "CMD") [str "a"]
     [str "  x", str "  y"] (by decide) (by decide) (by decide) (by decide)
     (by decide) (by decide)⟩

/-- Witness for C2 (amended): setting `X` to the undefined `$UNKNOWN` is a
hard error, and the substituted value indeed retains the `$`. -/
theorem set_cmd_rejects_residual_refs_witness :
    (isErr (set_cmd p0 [str "X", str "$UNKNOWN"]) = true ↔
      '$' ∈ set_value p0 (str "$UNKNOWN")) ∧
    '$' ∈ set_value p0 (str "$UNKNOWN") :=
  ⟨set_cmd_rejects_residual_refs p0 (str "X") (str "$UNKNOWN"), by decide⟩
